import Mathlib

/-!
Verification of the VLX_Robot event-broadcast system.

This file contains a shallow embedding of the core components of the
repository — the WebSocket broadcast hub (`internal/websocket/hub.go`),
the Twitch EventSub webhook handler (`internal/twitch/eventsub.go` and
its later revision embedded in `internal/twitch/chat_test.go`), the
Twitch chat command dispatcher (`internal/twitch/chat.go`), and the
YouTube polling engine (`internal/youtube/youtube.go`) — together with
theorems settling the behavioural properties claimed for them.

Machine integers are modelled as `Nat` with explicit reduction modulo
2^32 where the Go code relies on 32-bit wrap-around (the SHA-256
compression function).  Go maps used as sets are modelled as duplicate
free lists; Go channels are modelled by explicit queue contents plus an
open/closed flag and a close counter.
-/

namespace VLX

/-- JSON values appearing in the broadcast payloads built by the Go code
(`map[string]interface{}` / struct marshalling).  Only the shapes the
program actually produces are needed: strings, integers, booleans and
arrays of strings. -/
inductive JVal where
  | s (v : String)
  | n (v : Nat)
  | b (v : Bool)
  | arr (vs : List String)
deriving DecidableEq, Repr

/-- A JSON object payload, as the ordered key/value pairs the Go code
inserts.  `encoding/json` serialises a Go map with sorted keys, so two
payloads denote the same JSON object iff they are equal as key/value
sets; the code never repeats a key. -/
abbrev Payload := List (String × JVal)

/-! ## Broadcast hub (`internal/websocket/hub.go`, `client.go`)

The hub's `Run` loop owns the `clients` map and serialises three kinds
of events: a registration coming from `ServeWs` (which always creates a
brand-new `Client` with a fresh open buffered channel of capacity 256),
an unregistration coming from a client's `readPump`, and a broadcast.
`HubState` records, per client identifier: the pending contents of its
`send` channel, whether that channel is still open, and how many times
`close` has been called on it (Go panics on a double close, so the
safety property is that this counter never exceeds 1).  `conns` is the
set of client identifiers created so far by `ServeWs`. -/

structure HubState where
  conns : List Nat
  clients : List Nat
  queue : Nat → List Nat
  sendOpen : Nat → Bool
  closes : Nat → Nat

/-- Capacity of a client's `send` channel: `make(chan []byte, 256)` in
`ServeWs`. -/
def sendBufferSize : Nat := 256

/-- The three kinds of events `Hub.Run` reacts to.  `connect` models
`ServeWs` creating a fresh client and sending it on `h.register`. -/
inductive HubOp where
  | connect (c : Nat)
  | unregister (c : Nat)
  | broadcast (m : Nat)
deriving DecidableEq, Repr

/-- One iteration of the inner `for client := range h.clients` loop of
the broadcast case: non-blocking send (`select` with `default`); a full
buffer forces `close(client.send)` and `delete(h.clients, client)`. -/
def broadcastStep (m : Nat) (s : HubState) (c : Nat) : HubState :=
  if (s.queue c).length < sendBufferSize then
    { s with queue := Function.update s.queue c (s.queue c ++ [m]) }
  else
    { s with sendOpen := Function.update s.sendOpen c false,
             closes := Function.update s.closes c (s.closes c + 1),
             clients := s.clients.erase c }

/-- One iteration of `Hub.Run`'s `select`.  Registration adds the fresh
client to the map (its newly made channel is open and empty);
unregistration is guarded by map membership and closes the channel;
broadcast walks the current client set. -/
def hubStep (s : HubState) : HubOp → HubState
  | .connect c =>
      { conns := c :: s.conns
        clients := if c ∈ s.clients then s.clients else c :: s.clients
        queue := Function.update s.queue c []
        sendOpen := Function.update s.sendOpen c true
        closes := Function.update s.closes c 0 }
  | .unregister c =>
      if c ∈ s.clients then
        { s with clients := s.clients.erase c,
                 sendOpen := Function.update s.sendOpen c false,
                 closes := Function.update s.closes c (s.closes c + 1) }
      else s
  | .broadcast m => s.clients.foldl (broadcastStep m) s

/-- A sequence of serialised hub events. -/
def hubRun (s : HubState) : List HubOp → HubState :=
  List.foldl hubStep s

/-- The hub as `NewHub` returns it: no clients, no connections yet. -/
def initHub : HubState :=
  { conns := [], clients := [], queue := fun _ => [],
    sendOpen := fun _ => false, closes := fun _ => 0 }

/-- The payloads broadcast by a list of hub events, in call order. -/
def broadcastMsgs (ops : List HubOp) : List Nat :=
  ops.filterMap fun op =>
    match op with
    | .broadcast m => some m
    | _ => none

/-- An event is legal when it can actually arise in the program:
`ServeWs` always registers a brand-new `*Client`, so a `connect` always
carries a fresh identifier.  Unregistrations and broadcasts are
unconstrained. -/
def legalOp (s : HubState) : HubOp → Bool
  | .connect c => !(s.conns.contains c)
  | .unregister _ => true
  | .broadcast _ => true

/-- A legal sequence of hub events. -/
def legalRun : HubState → List HubOp → Bool
  | _, [] => true
  | s, op :: ops => legalOp s op && legalRun (hubStep s op) ops

/-- The safety invariant of the control loop: the client set has no
duplicates and only contains created connections; a created
connection's `send` channel is open exactly when the connection is in
the client set; a channel is closed at most once, and an open channel
has never been closed. -/
def HubInv (s : HubState) : Prop :=
  s.clients.Nodup ∧
  (∀ c, c ∈ s.clients → c ∈ s.conns) ∧
  (∀ c, c ∈ s.conns → (s.sendOpen c = true ↔ c ∈ s.clients)) ∧
  (∀ c, c ∈ s.conns → s.closes c ≤ 1) ∧
  (∀ c, c ∈ s.conns → s.sendOpen c = true → s.closes c = 0)

/-! ### Basic facts about one broadcast iteration -/

lemma broadcastStep_conns (m : Nat) (s : HubState) (a : Nat) :
    (broadcastStep m s a).conns = s.conns := by
  unfold broadcastStep; split <;> rfl

lemma broadcastStep_queue_ne (m : Nat) (s : HubState) {a c : Nat} (h : c ≠ a) :
    (broadcastStep m s a).queue c = s.queue c := by
  unfold broadcastStep; split <;> simp [Function.update_noteq h]

lemma broadcastStep_sendOpen_ne (m : Nat) (s : HubState) {a c : Nat} (h : c ≠ a) :
    (broadcastStep m s a).sendOpen c = s.sendOpen c := by
  unfold broadcastStep; split <;> simp [Function.update_noteq h]

lemma broadcastStep_closes_ne (m : Nat) (s : HubState) {a c : Nat} (h : c ≠ a) :
    (broadcastStep m s a).closes c = s.closes c := by
  unfold broadcastStep; split <;> simp [Function.update_noteq h]

lemma broadcastStep_mem_ne (m : Nat) (s : HubState) {a c : Nat} (h : c ≠ a) :
    c ∈ (broadcastStep m s a).clients ↔ c ∈ s.clients := by
  unfold broadcastStep; split
  · exact Iff.rfl
  · exact List.mem_erase_of_ne h

lemma broadcastStep_mem_of_mem (m : Nat) (s : HubState) {a c : Nat}
    (h : c ∈ (broadcastStep m s a).clients) : c ∈ s.clients := by
  unfold broadcastStep at h; split at h
  · exact h
  · exact List.mem_of_mem_erase h

lemma broadcastStep_nodup (m : Nat) (s : HubState) (a : Nat)
    (h : s.clients.Nodup) : (broadcastStep m s a).clients.Nodup := by
  unfold broadcastStep; split
  · exact h
  · exact h.erase a

/-- A client not mentioned in the iteration list is completely untouched
by the broadcast loop. -/
lemma foldl_broadcastStep_not_mem (m : Nat) :
    ∀ (l : List Nat) (s : HubState) (c : Nat), c ∉ l →
      (l.foldl (broadcastStep m) s).queue c = s.queue c ∧
      (l.foldl (broadcastStep m) s).sendOpen c = s.sendOpen c ∧
      (l.foldl (broadcastStep m) s).closes c = s.closes c ∧
      (c ∈ (l.foldl (broadcastStep m) s).clients ↔ c ∈ s.clients)
  | [], _, _, _ => ⟨rfl, rfl, rfl, Iff.rfl⟩
  | a :: l, s, c, hc => by
      have hca : c ≠ a := fun h => hc (h ▸ List.mem_cons_self a l)
      have hcl : c ∉ l := fun h => hc (List.mem_cons_of_mem a h)
      have ih := foldl_broadcastStep_not_mem m l (broadcastStep m s a) c hcl
      refine ⟨?_, ?_, ?_, ?_⟩
      · rw [List.foldl_cons, ih.1, broadcastStep_queue_ne m s hca]
      · rw [List.foldl_cons, ih.2.1, broadcastStep_sendOpen_ne m s hca]
      · rw [List.foldl_cons, ih.2.2.1, broadcastStep_closes_ne m s hca]
      · rw [List.foldl_cons]
        exact ih.2.2.2.trans (broadcastStep_mem_ne m s hca)

lemma foldl_broadcastStep_nodup (m : Nat) :
    ∀ (l : List Nat) (s : HubState), s.clients.Nodup →
      (l.foldl (broadcastStep m) s).clients.Nodup
  | [], _, h => h
  | a :: l, s, h =>
      foldl_broadcastStep_nodup m l (broadcastStep m s a)
        (broadcastStep_nodup m s a h)

lemma foldl_broadcastStep_conns (m : Nat) :
    ∀ (l : List Nat) (s : HubState),
      (l.foldl (broadcastStep m) s).conns = s.conns
  | [], _ => rfl
  | a :: l, s =>
      (foldl_broadcastStep_conns m l (broadcastStep m s a)).trans
        (broadcastStep_conns m s a)

/-- A client with room in its buffer receives the payload; nothing else
about it changes. -/
lemma foldl_broadcastStep_deliver (m : Nat) :
    ∀ (l : List Nat) (s : HubState) (c : Nat), l.Nodup → c ∈ l →
      (s.queue c).length < sendBufferSize →
      (l.foldl (broadcastStep m) s).queue c = s.queue c ++ [m] ∧
      ((c ∈ (l.foldl (broadcastStep m) s).clients ↔ c ∈ s.clients)) ∧
      (l.foldl (broadcastStep m) s).sendOpen c = s.sendOpen c
  | [], _, _, _, hc, _ => absurd hc (List.not_mem_nil _)
  | a :: l, s, c, hnd, hc, hroom => by
      rcases List.mem_cons.mp hc with hac | hcl
      · subst hac
        have hcl : c ∉ l := (List.nodup_cons.mp hnd).1
        have hstep : broadcastStep m s c =
            { s with queue := Function.update s.queue c (s.queue c ++ [m]) } := by
          unfold broadcastStep; rw [if_pos hroom]
        have ih := foldl_broadcastStep_not_mem m l (broadcastStep m s c) c hcl
        refine ⟨?_, ?_, ?_⟩
        · rw [List.foldl_cons, ih.1, hstep]; simp
        · rw [List.foldl_cons]
          refine ih.2.2.2.trans ?_
          rw [hstep]
        · rw [List.foldl_cons, ih.2.1, hstep]
      · have hca : c ≠ a := by
          rintro rfl; exact (List.nodup_cons.mp hnd).1 hcl
        have hq := broadcastStep_queue_ne m s hca
        have ih := foldl_broadcastStep_deliver m l (broadcastStep m s a) c
          (List.nodup_cons.mp hnd).2 hcl (by rw [hq]; exact hroom)
        refine ⟨?_, ?_, ?_⟩
        · rw [List.foldl_cons, ih.1, hq]
        · rw [List.foldl_cons]
          exact ih.2.1.trans (broadcastStep_mem_ne m s hca)
        · rw [List.foldl_cons, ih.2.2, broadcastStep_sendOpen_ne m s hca]

/-- A client whose buffer is already full is evicted by the broadcast
loop: its channel is closed and it leaves the client set. -/
lemma foldl_broadcastStep_evict (m : Nat) :
    ∀ (l : List Nat) (s : HubState) (c : Nat), l.Nodup → c ∈ l →
      s.clients.Nodup → sendBufferSize ≤ (s.queue c).length →
      (l.foldl (broadcastStep m) s).sendOpen c = false ∧
      c ∉ (l.foldl (broadcastStep m) s).clients
  | [], _, _, _, hc, _, _ => absurd hc (List.not_mem_nil _)
  | a :: l, s, c, hnd, hc, hcls, hfull => by
      rcases List.mem_cons.mp hc with hac | hcl
      · subst hac
        have hcl : c ∉ l := (List.nodup_cons.mp hnd).1
        have hstep : broadcastStep m s c =
            { s with sendOpen := Function.update s.sendOpen c false,
                     closes := Function.update s.closes c (s.closes c + 1),
                     clients := s.clients.erase c } := by
          unfold broadcastStep; rw [if_neg (Nat.not_lt.mpr hfull)]
        have ih := foldl_broadcastStep_not_mem m l (broadcastStep m s c) c hcl
        constructor
        · rw [List.foldl_cons, ih.2.1, hstep]; simp
        · rw [List.foldl_cons]
          intro hmem
          have : c ∈ (broadcastStep m s c).clients := ih.2.2.2.mp hmem
          rw [hstep] at this
          exact ((hcls.mem_erase_iff).mp this).1 rfl
      · have hca : c ≠ a := by
          rintro rfl; exact (List.nodup_cons.mp hnd).1 hcl
        exact foldl_broadcastStep_evict m l (broadcastStep m s a) c
          (List.nodup_cons.mp hnd).2 hcl (broadcastStep_nodup m s a hcls)
          (by rw [broadcastStep_queue_ne m s hca]; exact hfull)

lemma hubStep_nodup (s : HubState) (op : HubOp) (h : s.clients.Nodup) :
    (hubStep s op).clients.Nodup := by
  cases op with
  | connect c =>
      by_cases hc : c ∈ s.clients
      · simpa [hubStep, hc] using h
      · simpa [hubStep, hc] using List.nodup_cons.mpr ⟨hc, h⟩
  | unregister c =>
      by_cases hc : c ∈ s.clients
      · simpa [hubStep, hc] using h.erase c
      · simpa [hubStep, hc] using h
  | broadcast m => exact foldl_broadcastStep_nodup m s.clients s h

/-- C1.  Hub isolation: (a) a broadcast hitting a registered connection
whose outbound buffer is already saturated forcibly removes that
connection from the client set and closes its channel instead of
blocking; (b) any connection that is registered, is never asked to
unregister, and has enough buffer headroom receives every payload
broadcast in the remaining event sequence, appended to its queue in the
order `Broadcast` was called — independently of what happens to any
other (possibly saturated) connection. -/
theorem hub_isolation :
    (∀ (s : HubState) (c m : Nat), s.clients.Nodup → c ∈ s.clients →
        sendBufferSize ≤ (s.queue c).length →
        c ∉ (hubStep s (.broadcast m)).clients ∧
        (hubStep s (.broadcast m)).sendOpen c = false) ∧
    (∀ (s : HubState) (d : Nat) (ops : List HubOp), s.clients.Nodup →
        d ∈ s.clients →
        HubOp.unregister d ∉ ops → HubOp.connect d ∉ ops →
        (s.queue d).length + (broadcastMsgs ops).length ≤ sendBufferSize →
        d ∈ (hubRun s ops).clients ∧
        (hubRun s ops).queue d = s.queue d ++ broadcastMsgs ops) := by
  constructor
  · intro s c m hnd hc hfull
    have h := foldl_broadcastStep_evict m s.clients s c hnd hc hnd hfull
    exact ⟨h.2, h.1⟩
  · intro s d ops
    induction ops generalizing s with
    | nil =>
        intro _ hd _ _ _
        exact ⟨hd, by simp [hubRun, broadcastMsgs]⟩
    | cons op ops ih =>
        intro hnd hd hnu hnc hroom
        have hnu' : HubOp.unregister d ∉ ops := fun h => hnu (List.mem_cons_of_mem _ h)
        have hnc' : HubOp.connect d ∉ ops := fun h => hnc (List.mem_cons_of_mem _ h)
        have hrun : hubRun s (op :: ops) = hubRun (hubStep s op) ops := rfl
        cases op with
        | connect c =>
            have hcd : d ≠ c := fun h => hnc (h ▸ List.mem_cons_self _ _)
            have hq : (hubStep s (.connect c)).queue d = s.queue d := by
              simp [hubStep, Function.update_noteq hcd]
            have hmem : d ∈ (hubStep s (.connect c)).clients := by
              by_cases hc : c ∈ s.clients <;>
                simp [hubStep, hc, hd]
            have hmsgs : broadcastMsgs (HubOp.connect c :: ops) = broadcastMsgs ops := rfl
            have := ih (hubStep s (.connect c)) (hubStep_nodup s _ hnd) hmem hnu' hnc'
              (by rw [hq]; simpa [hmsgs] using hroom)
            rw [hrun, hmsgs]
            exact ⟨this.1, by rw [this.2, hq]⟩
        | unregister c =>
            have hcd : d ≠ c := fun h => hnu (h ▸ List.mem_cons_self _ _)
            have hq : (hubStep s (.unregister c)).queue d = s.queue d := by
              by_cases hc : c ∈ s.clients <;> simp [hubStep, hc]
            have hmem : d ∈ (hubStep s (.unregister c)).clients := by
              by_cases hc : c ∈ s.clients
              · simpa [hubStep, hc] using (List.mem_erase_of_ne hcd).mpr hd
              · simpa [hubStep, hc] using hd
            have hmsgs : broadcastMsgs (HubOp.unregister c :: ops) = broadcastMsgs ops := rfl
            have := ih (hubStep s (.unregister c)) (hubStep_nodup s _ hnd) hmem hnu' hnc'
              (by rw [hq]; simpa [hmsgs] using hroom)
            rw [hrun, hmsgs]
            exact ⟨this.1, by rw [this.2, hq]⟩
        | broadcast m =>
            have hmsgs : broadcastMsgs (HubOp.broadcast m :: ops) =
                m :: broadcastMsgs ops := rfl
            rw [hmsgs] at hroom
            have hroom1 : (s.queue d).length < sendBufferSize := by
              simp only [List.length_cons] at hroom; omega
            have hdel := foldl_broadcastStep_deliver m s.clients s d hnd hd hroom1
            have hq : (hubStep s (.broadcast m)).queue d = s.queue d ++ [m] := hdel.1
            have hmem : d ∈ (hubStep s (.broadcast m)).clients := hdel.2.1.mpr hd
            have := ih (hubStep s (.broadcast m)) (hubStep_nodup s _ hnd) hmem hnu' hnc'
              (by rw [hq]; simp only [List.length_append, List.length_cons,
                    List.length_nil] at hroom ⊢; omega)
            rw [hrun, hmsgs]
            refine ⟨this.1, ?_⟩
            rw [this.2, hq, List.append_assoc]
            rfl

/-- Example hub state for the C1 witness: connections 1 and 2 are
registered; connection 1's outbound buffer is saturated while
connection 2's is empty. -/
def exSatState : HubState :=
  { conns := [1, 2], clients := [1, 2],
    queue := fun c => if c = 1 then List.replicate sendBufferSize 0 else [],
    sendOpen := fun _ => true, closes := fun _ => 0 }

/-- Witness for C1 at concrete inputs: broadcasting to `exSatState`
evicts the saturated connection 1 and closes its channel, while
connection 2 stays registered and receives two subsequent broadcasts in
order. -/
theorem hub_isolation_witness :
    (1 ∉ (hubStep exSatState (.broadcast 9)).clients ∧
      (hubStep exSatState (.broadcast 9)).sendOpen 1 = false) ∧
    (2 ∈ (hubRun exSatState [HubOp.broadcast 9, HubOp.broadcast 7]).clients ∧
      (hubRun exSatState [HubOp.broadcast 9, HubOp.broadcast 7]).queue 2 = [9, 7]) := by
  have hlen : (exSatState.queue 1).length = sendBufferSize := by
    show (List.replicate sendBufferSize 0).length = sendBufferSize
    exact List.length_replicate _ _
  constructor
  · exact hub_isolation.1 exSatState 1 9 (by decide) (by decide)
      (by rw [hlen])
  · have h := hub_isolation.2 exSatState 2 [HubOp.broadcast 9, HubOp.broadcast 7]
      (by decide) (by decide) (by decide) (by decide) (by decide)
    exact ⟨h.1, h.2.trans rfl⟩

/-- C7.  Unregister idempotence: issuing a second `unregister` for the
same connection is a no-op — the state is unchanged and in particular
the connection's channel is not closed a second time (at most one close
happens across both calls). -/
theorem unregister_idempotent (s : HubState) (c : Nat) (h : s.clients.Nodup) :
    hubStep (hubStep s (.unregister c)) (.unregister c) = hubStep s (.unregister c) ∧
    (hubStep (hubStep s (.unregister c)) (.unregister c)).closes c ≤ s.closes c + 1 := by
  have noop : ∀ (t : HubState), c ∉ t.clients → hubStep t (.unregister c) = t := by
    intro t ht
    simp [hubStep, ht]
  by_cases hc : c ∈ s.clients
  · have h1 : hubStep s (.unregister c) =
        { s with clients := s.clients.erase c,
                 sendOpen := Function.update s.sendOpen c false,
                 closes := Function.update s.closes c (s.closes c + 1) } := by
      simp [hubStep, hc]
    have h2 : c ∉ (hubStep s (.unregister c)).clients := by
      rw [h1]
      intro hmem
      exact ((h.mem_erase_iff).mp hmem).1 rfl
    have h3 := noop _ h2
    refine ⟨h3, ?_⟩
    rw [h3, h1]
    simp
  · have h1 : hubStep s (.unregister c) = s := by simp [hubStep, hc]
    have h2 := noop s hc
    refine ⟨?_, ?_⟩
    · rw [h1]; exact h1
    · rw [h1, h2]; exact Nat.le_succ _

/-- Witness for C7 at a concrete state: one registered connection,
unregistered twice. -/
theorem unregister_idempotent_witness :
    hubStep (hubStep exSatState (.unregister 1)) (.unregister 1) =
      hubStep exSatState (.unregister 1) ∧
    (hubStep (hubStep exSatState (.unregister 1)) (.unregister 1)).closes 1 ≤
      exSatState.closes 1 + 1 :=
  unregister_idempotent exSatState 1 (by decide)

/-! ### Invariant preservation (C10) -/

lemma broadcastStep_inv (m : Nat) (s : HubState) (c : Nat)
    (h : HubInv s) (hc : c ∈ s.clients) : HubInv (broadcastStep m s c) := by
  obtain ⟨hnd, hsub, hiff, hle, hopen⟩ := h
  by_cases hroom : (s.queue c).length < sendBufferSize
  · have hstep : broadcastStep m s c =
        { s with queue := Function.update s.queue c (s.queue c ++ [m]) } := by
      unfold broadcastStep; rw [if_pos hroom]
    rw [hstep]
    exact ⟨hnd, hsub, hiff, hle, hopen⟩
  · have hstep : broadcastStep m s c =
        { s with sendOpen := Function.update s.sendOpen c false,
                 closes := Function.update s.closes c (s.closes c + 1),
                 clients := s.clients.erase c } := by
      unfold broadcastStep; rw [if_neg hroom]
    have hcc : c ∈ s.conns := hsub c hc
    have hczero : s.closes c = 0 := hopen c hcc ((hiff c hcc).mpr hc)
    rw [hstep]
    refine ⟨hnd.erase c, ?_, ?_, ?_, ?_⟩
    · intro x hx
      exact hsub x (List.mem_of_mem_erase hx)
    · intro x hx
      by_cases hxc : x = c
      · subst hxc
        simp only [Function.update_same, Bool.false_eq_true, false_iff]
        intro hmem
        exact ((hnd.mem_erase_iff).mp hmem).1 rfl
      · simp only [Function.update_noteq hxc]
        exact (hiff x hx).trans (List.mem_erase_of_ne hxc).symm
    · intro x hx
      by_cases hxc : x = c
      · subst hxc
        simp only [Function.update_same, hczero]
        omega
      · simp only [Function.update_noteq hxc]
        exact hle x hx
    · intro x hx hxopen
      by_cases hxc : x = c
      · subst hxc
        simp only [Function.update_same] at hxopen
        exact Bool.noConfusion hxopen
      · simp only [Function.update_noteq hxc] at hxopen ⊢
        exact hopen x hx hxopen

lemma foldl_broadcastStep_inv (m : Nat) :
    ∀ (l : List Nat) (s : HubState), HubInv s → (∀ x ∈ l, x ∈ s.clients) →
      l.Nodup → HubInv (l.foldl (broadcastStep m) s)
  | [], _, h, _, _ => h
  | a :: l, s, h, hmem, hnd => by
      have ha := hmem a (List.mem_cons_self a l)
      apply foldl_broadcastStep_inv m l (broadcastStep m s a)
        (broadcastStep_inv m s a h ha)
      · intro x hx
        have hxa : x ≠ a := by
          rintro rfl; exact (List.nodup_cons.mp hnd).1 hx
        exact (broadcastStep_mem_ne m s hxa).mpr (hmem x (List.mem_cons_of_mem a hx))
      · exact (List.nodup_cons.mp hnd).2

lemma hubStep_inv (s : HubState) (op : HubOp)
    (hInv : HubInv s) (hLegal : legalOp s op = true) : HubInv (hubStep s op) := by
  cases op with
  | connect c =>
      obtain ⟨hnd, hsub, hiff, hle, hopen⟩ := hInv
      have hfresh : c ∉ s.conns := by
        simpa [legalOp] using hLegal
      have hcnotcl : c ∉ s.clients := fun h => hfresh (hsub c h)
      have hstep : hubStep s (.connect c) =
          { conns := c :: s.conns, clients := c :: s.clients,
            queue := Function.update s.queue c [],
            sendOpen := Function.update s.sendOpen c true,
            closes := Function.update s.closes c 0 } := by
        simp [hubStep, hcnotcl]
      rw [hstep]
      refine ⟨List.nodup_cons.mpr ⟨hcnotcl, hnd⟩, ?_, ?_, ?_, ?_⟩
      · intro x hx
        rcases List.mem_cons.mp hx with hxc | hx'
        · exact hxc ▸ List.mem_cons_self c s.conns
        · exact List.mem_cons_of_mem c (hsub x hx')
      · intro x hx
        by_cases hxc : x = c
        · subst hxc
          simp only [Function.update_same]
          simp
        · simp only [Function.update_noteq hxc]
          have hx' : x ∈ s.conns := by
            rcases List.mem_cons.mp hx with h | h
            · exact absurd h hxc
            · exact h
          rw [hiff x hx']
          simp [hxc]
      · intro x hx
        by_cases hxc : x = c
        · subst hxc
          simp only [Function.update_same]
          exact Nat.zero_le 1
        · simp only [Function.update_noteq hxc]
          have hx' : x ∈ s.conns := by
            rcases List.mem_cons.mp hx with h | h
            · exact absurd h hxc
            · exact h
          exact hle x hx'
      · intro x hx hxopen
        by_cases hxc : x = c
        · subst hxc
          simp only [Function.update_same]
        · simp only [Function.update_noteq hxc] at hxopen ⊢
          have hx' : x ∈ s.conns := by
            rcases List.mem_cons.mp hx with h | h
            · exact absurd h hxc
            · exact h
          exact hopen x hx' hxopen
  | unregister c =>
      obtain ⟨hnd, hsub, hiff, hle, hopen⟩ := hInv
      by_cases hc : c ∈ s.clients
      · have hstep : hubStep s (.unregister c) =
            { s with clients := s.clients.erase c,
                     sendOpen := Function.update s.sendOpen c false,
                     closes := Function.update s.closes c (s.closes c + 1) } := by
          simp [hubStep, hc]
        have hcc : c ∈ s.conns := hsub c hc
        have hczero : s.closes c = 0 := hopen c hcc ((hiff c hcc).mpr hc)
        rw [hstep]
        refine ⟨hnd.erase c, ?_, ?_, ?_, ?_⟩
        · intro x hx
          exact hsub x (List.mem_of_mem_erase hx)
        · intro x hx
          by_cases hxc : x = c
          · subst hxc
            simp only [Function.update_same, Bool.false_eq_true, false_iff]
            intro hmem
            exact ((hnd.mem_erase_iff).mp hmem).1 rfl
          · simp only [Function.update_noteq hxc]
            exact (hiff x hx).trans (List.mem_erase_of_ne hxc).symm
        · intro x hx
          by_cases hxc : x = c
          · subst hxc
            simp only [Function.update_same, hczero]
            omega
          · simp only [Function.update_noteq hxc]
            exact hle x hx
        · intro x hx hxopen
          by_cases hxc : x = c
          · subst hxc
            simp only [Function.update_same] at hxopen
            exact Bool.noConfusion hxopen
          · simp only [Function.update_noteq hxc] at hxopen ⊢
            exact hopen x hx hxopen
      · have hstep : hubStep s (.unregister c) = s := by simp [hubStep, hc]
        rw [hstep]
        exact ⟨hnd, hsub, hiff, hle, hopen⟩
  | broadcast m =>
      exact foldl_broadcastStep_inv m s.clients s hInv (fun x hx => hx) hInv.1

/-- C10.  The hub's control loop preserves, across every legal
register, unregister and broadcast step, the invariant that a created
connection's outbound channel is open exactly when the connection is in
the registered set, and that every channel is closed at most once (an
open channel has never been closed) — so the loop never double-closes a
channel, even when a full-buffer eviction is later followed by that
connection's own unregister request. -/
theorem run_preserves_invariant :
    ∀ (ops : List HubOp) (s : HubState), HubInv s → legalRun s ops = true →
      HubInv (hubRun s ops)
  | [], _, h, _ => h
  | op :: ops, s, h, hleg => by
      have h1 : legalOp s op = true ∧ legalRun (hubStep s op) ops = true := by
        simpa [legalRun, Bool.and_eq_true] using hleg
      exact run_preserves_invariant ops (hubStep s op)
        (hubStep_inv s op h h1.1) h1.2

/-- Witness event sequence for C10: two fresh connections register, 256
broadcasts saturate both buffers, a further broadcast evicts both
saturated connections, and finally connection 1's own unregister
request arrives after it has already been evicted. -/
def demoOps : List HubOp :=
  [HubOp.connect 1, HubOp.connect 2] ++
    List.replicate sendBufferSize (HubOp.broadcast 0) ++
    [HubOp.broadcast 1, HubOp.unregister 1]

set_option maxRecDepth 4096 in
/-- Witness for C10: the invariant holds after running `demoOps` from
the freshly constructed hub. -/
theorem run_preserves_invariant_witness : HubInv (hubRun initHub demoOps) := by
  have hinv : HubInv initHub := by
    refine ⟨List.nodup_nil, ?_, ?_, ?_, ?_⟩ <;>
      intro c hc <;> simp [initHub] at hc
  exact run_preserves_invariant demoOps initHub hinv (by decide)

/-! ## SHA-256 and HMAC-SHA256

The Go webhook handler authenticates requests with `crypto/hmac` and
`crypto/sha256` from the standard library.  These primitives are
implemented here in full (FIPS 180-4 / RFC 2104) over byte lists, with
32-bit words as `Nat` reduced modulo 2^32, so that the signature
checking claims can be settled on completely concrete data. -/

/-- Reduce to a 32-bit word. -/
def w32 (n : Nat) : Nat := n % 4294967296

/-- 32-bit wrap-around addition. -/
def wadd (a b : Nat) : Nat := w32 (a + b)

/-- 32-bit complement (argument assumed < 2^32). -/
def wnot (a : Nat) : Nat := 4294967295 - a

/-- 32-bit right rotation. -/
def rotr (x k : Nat) : Nat := w32 ((x >>> k) ||| (x <<< (32 - k)))

/-- The SHA-256 round constants (FIPS 180-4 §4.2.2, written in
decimal). -/
def sha256K : List Nat :=
  [1116352408, 1899447441, 3049323471, 3921009573,
   961987163, 1508970993, 2453635748, 2870763221,
   3624381080, 310598401, 607225278, 1426881987,
   1925078388, 2162078206, 2614888103, 3248222580,
   3835390401, 4022224774, 264347078, 604807628,
   770255983, 1249150122, 1555081692, 1996064986,
   2554220882, 2821834349, 2952996808, 3210313671,
   3336571891, 3584528711, 113926993, 338241895,
   666307205, 773529912, 1294757372, 1396182291,
   1695183700, 1986661051, 2177026350, 2456956037,
   2730485921, 2820302411, 3259730800, 3345764771,
   3516065817, 3600352804, 4094571909, 275423344,
   430227734, 506948616, 659060556, 883997877,
   958139571, 1322822218, 1537002063, 1747873779,
   1955562222, 2024104815, 2227730452, 2361852424,
   2428436474, 2756734187, 3204031479, 3329325298]

/-- The eight 32-bit working variables of the SHA-256 compression
function (`h` is spelt `hh` to avoid clashing with hypothesis names). -/
structure Hash8 where
  a : Nat
  b : Nat
  c : Nat
  d : Nat
  e : Nat
  f : Nat
  g : Nat
  hh : Nat
deriving Repr, DecidableEq

/-- The SHA-256 initial hash value (FIPS 180-4 §5.3.3, in decimal). -/
def sha256H0 : Hash8 :=
  ⟨1779033703, 3144134277, 1013904242, 2773480762,
   1359893119, 2600822924, 528734635, 1541459225⟩

/-- Big-endian bytes of a 32-bit word. -/
def beBytes4 (n : Nat) : List Nat :=
  [w32 n >>> 24, (w32 n >>> 16) % 256, (w32 n >>> 8) % 256, w32 n % 256]

/-- Big-endian bytes of a 64-bit length field. -/
def beBytes8 (n : Nat) : List Nat :=
  beBytes4 (n >>> 32) ++ beBytes4 n

/-- Assemble big-endian bytes into a word. -/
def bytesToWord (bs : List Nat) : Nat :=
  bs.foldl (fun acc b => acc * 256 + b) 0

/-- SHA-256 padding: append 0x80, zero bytes up to 56 mod 64, and the
bit length as a 64-bit big-endian integer. -/
def padMessage (ms : List Nat) : List Nat :=
  let L := ms.length
  let k := (119 - (L % 64)) % 64
  ms ++ [0x80] ++ List.replicate k 0 ++ beBytes8 (8 * L)

/-- The first 16 words of the message schedule of one 64-byte block. -/
def blockWords (block : List Nat) : List Nat :=
  (List.range 16).map fun i => bytesToWord ((block.drop (4 * i)).take 4)

/-- Extend the message schedule by one word. -/
def scheduleStep (ws : List Nat) : List Nat :=
  let i := ws.length
  let w15 := ws.getD (i - 15) 0
  let w2 := ws.getD (i - 2) 0
  let w16 := ws.getD (i - 16) 0
  let w7 := ws.getD (i - 7) 0
  let s0 := (rotr w15 7) ^^^ (rotr w15 18) ^^^ (w15 >>> 3)
  let s1 := (rotr w2 17) ^^^ (rotr w2 19) ^^^ (w2 >>> 10)
  ws ++ [wadd (wadd w16 s0) (wadd w7 s1)]

/-- The 64-word message schedule of one block. -/
def messageSchedule (block : List Nat) : List Nat :=
  (List.range 48).foldl (fun ws _ => scheduleStep ws) (blockWords block)

/-- One round of the SHA-256 compression function, consuming a pair of
a round constant and a schedule word. -/
def compressRound (st : Hash8) (kw : Nat × Nat) : Hash8 :=
  let S1 := (rotr st.e 6) ^^^ (rotr st.e 11) ^^^ (rotr st.e 25)
  let ch := (st.e &&& st.f) ^^^ ((wnot st.e) &&& st.g)
  let temp1 := wadd (wadd (wadd st.hh S1) (wadd ch kw.1)) kw.2
  let S0 := (rotr st.a 2) ^^^ (rotr st.a 13) ^^^ (rotr st.a 22)
  let maj := (st.a &&& st.b) ^^^ (st.a &&& st.c) ^^^ (st.b &&& st.c)
  let temp2 := wadd S0 maj
  ⟨wadd temp1 temp2, st.a, st.b, st.c, wadd st.d temp1, st.e, st.f, st.g⟩

/-- Process one 64-byte block. -/
def compressBlock (st : Hash8) (block : List Nat) : Hash8 :=
  let final := ((messageSchedule block).zip sha256K).foldl
    (fun acc wk => compressRound acc (wk.2, wk.1)) st
  ⟨wadd st.a final.a, wadd st.b final.b, wadd st.c final.c, wadd st.d final.d,
   wadd st.e final.e, wadd st.f final.f, wadd st.g final.g, wadd st.hh final.hh⟩

/-- SHA-256 of a byte list (validated against the FIPS 180-4 test
vectors for the empty string, "abc" and the 448-bit test message). -/
def sha256 (ms : List Nat) : List Nat :=
  let padded := padMessage ms
  let nBlocks := padded.length / 64
  let blocks := (List.range nBlocks).map fun i => (padded.drop (64 * i)).take 64
  let final := blocks.foldl compressBlock sha256H0
  beBytes4 final.a ++ beBytes4 final.b ++ beBytes4 final.c ++ beBytes4 final.d ++
    beBytes4 final.e ++ beBytes4 final.f ++ beBytes4 final.g ++ beBytes4 final.hh

/-- Lower-case hexadecimal digit. -/
def hexDigitChar (n : Nat) : Char :=
  if n < 10 then Char.ofNat (48 + n) else Char.ofNat (87 + n)

/-- Lower-case hexadecimal encoding, as Go's `hex.EncodeToString`. -/
def hexOfBytes (bs : List Nat) : String :=
  String.mk (bs.flatMap fun b => [hexDigitChar (b / 16), hexDigitChar (b % 16)])

/-- The bytes of a string.  All strings handled by the webhook path in
the claims are ASCII, for which UTF-8 bytes coincide with code
points. -/
def strBytes (s : String) : List Nat := s.data.map Char.toNat

/-- HMAC-SHA256 (RFC 2104), as Go's `hmac.New(sha256.New, key)`
(validated against the RFC 4231 style test vector for key "key"). -/
def hmacSha256 (key msg : List Nat) : List Nat :=
  let k0 := if key.length > 64 then sha256 key else key
  let kpad := k0 ++ List.replicate (64 - k0.length) 0
  let ipadded := kpad.map (fun b => b ^^^ 0x36)
  let opadded := kpad.map (fun b => b ^^^ 0x5c)
  sha256 (opadded ++ sha256 (ipadded ++ msg))

/-! ## Twitch EventSub webhook handling

Embedding of `HandleEventSubCallback`, `verifyEventSubSignature` and
`handleNotification` from the zap-logger revision of the EventSub code
(the second document embedded in `internal/twitch/chat_test.go`, whose
logic agrees with `internal/twitch/eventsub.go` on the verification and
dispatch flow).  `encoding/json` is an external dependency: the parse
of the raw body into the envelope / challenge / revocation structures
is injected as a `JsonCodec`, while the signature is always computed
over the raw body bytes exactly as the Go code does. -/

/-- The event payloads `json.Unmarshal` can produce from a notification
body, one constructor per helix event struct the handler unmarshals
into. -/
inductive EventData where
  | follow (userName : String)
  | subscribe (userName : String) (tier : String) (isGift : Bool)
  | subMessage (userName : String) (tier : String) (messageText : String)
      (cumulativeMonths : Nat)
  | gift (userName : String) (total : Nat) (tier : String)
  | cheer (userName : String) (bits : Nat) (message : String) (isAnonymous : Bool)
  | raid (fromBroadcasterUserName : String) (viewers : Nat)
deriving DecidableEq, Repr

/-- The pieces of an inbound EventSub HTTP request the handler reads:
the three `Twitch-Eventsub-Message-*` headers, the message type header,
and the raw body bytes. -/
structure EventSubRequest where
  messageId : String
  timestamp : String
  messageType : String
  signature : String
  body : List Nat
deriving DecidableEq, Repr

/-- HTTP statuses the handler can answer with. -/
inductive HttpStatus where
  | ok200
  | badRequest400
  | unauthorized401
  | serverError500
deriving DecidableEq, Repr

/-- Observable side effects of handling a request: invoking the event
translation (`handleNotification`), emitting a payload on the hub's
`Broadcast` channel, deleting a revoked Subscription Record. -/
inductive CallbackAction where
  | translate (eventType : String)
  | broadcast (p : Payload)
  | deleteSubscription (id : String)
deriving DecidableEq, Repr

/-- The behaviour of `json.Unmarshal` on the three body shapes the
handler parses, injected as the external-collaborator contract. -/
structure JsonCodec where
  envelope : List Nat → Option (String × EventData)
  challenge : List Nat → Option String
  revocation : List Nat → Option String

/-- The signature the handler computes: `sha256=` followed by the hex
HMAC-SHA256 of message id ++ timestamp ++ raw body under the webhook
secret. -/
def expectedSignature (secret msgId ts : String) (body : List Nat) : String :=
  "sha256=" ++ hexOfBytes (hmacSha256 (strBytes secret) (strBytes (msgId ++ ts) ++ body))

/-- `verifyEventSubSignature`: guard against a too-short header, then
compare the received header against the expected signature.  Go's
`hmac.Equal` is a constant-time byte comparison; its value is equality
of the two strings. -/
def verifyEventSubSignature (secret : String) (req : EventSubRequest) : Bool :=
  if req.signature.length < "sha256=".length then false
  else req.signature == expectedSignature secret req.messageId req.timestamp req.body

/-- `handleNotification`: translate a notification of a known event
type into the broadcast payload, preserving the order in which the Go
code inserts the keys.  An unknown event type, or a body that does not
unmarshal into the struct for the claimed type, produces no payload. -/
def handleNotification (eventType : String) (ev : EventData) : Option Payload :=
  if eventType == "channel.follow" then
    match ev with
    | .follow u => some [("type", .s "twitch_follow"), ("user_name", .s u)]
    | _ => none
  else if eventType == "channel.subscribe" then
    match ev with
    | .subscribe u t g =>
        some [("type", .s "twitch_subscribe"), ("user_name", .s u),
              ("tier", .s t), ("is_gift", .b g)]
    | _ => none
  else if eventType == "channel.subscription.message" then
    match ev with
    | .subMessage u t m cm =>
        some [("type", .s "twitch_resubscribe"), ("user_name", .s u),
              ("tier", .s t), ("message", .s m), ("cumulative_months", .n cm)]
    | _ => none
  else if eventType == "channel.subscription.gift" then
    match ev with
    | .gift u tot t =>
        some [("type", .s "twitch_gift_sub"), ("gifter_name", .s u),
              ("total_gifts", .n tot), ("tier", .s t)]
    | _ => none
  else if eventType == "channel.cheer" then
    match ev with
    | .cheer u bits m _ =>
        some [("type", .s "twitch_cheer"), ("user_name", .s u),
              ("bits", .n bits), ("message", .s m)]
    | _ => none
  else if eventType == "channel.raid" then
    match ev with
    | .raid f v =>
        some [("type", .s "twitch_raid"), ("raider_name", .s f), ("viewers", .n v)]
    | _ => none
  else none

/-- `HandleEventSubCallback`: verify the signature first (rejecting
with 401 before anything is parsed), then branch on the message type
header into challenge echo, notification translation + broadcast,
revocation deletion, and a catch-all success. -/
def HandleEventSubCallback (codec : JsonCodec) (secret : String)
    (req : EventSubRequest) : HttpStatus × String × List CallbackAction :=
  if !(verifyEventSubSignature secret req) then
    (.unauthorized401, "Invalid Signature", [])
  else if req.messageType == "webhook_callback_verification" then
    match codec.challenge req.body with
    | some ch => (.ok200, ch, [])
    | none => (.badRequest400, "Bad Request", [])
  else if req.messageType == "notification" then
    match codec.envelope req.body with
    | some env =>
        match handleNotification env.1 env.2 with
        | some p => (.ok200, "OK", [.translate env.1, .broadcast p])
        | none => (.ok200, "OK", [.translate env.1])
    | none => (.badRequest400, "Bad Request", [])
  else if req.messageType == "revocation" then
    match codec.revocation req.body with
    | some subId => (.ok200, "OK", [.deleteSubscription subId])
    | none => (.ok200, "OK", [])
  else (.ok200, "", [])

/-- C3.  Any request whose signature header differs from the
HMAC-SHA256 (hex, constant-time compared) of message id, timestamp and
raw body under the webhook secret — in particular one with a tampered
body or a signature made with the wrong secret — is answered with 401
Unauthorized, and no translation, broadcast or deletion happens. -/
theorem signature_rejection (codec : JsonCodec) (secret : String)
    (req : EventSubRequest)
    (h : req.signature ≠ expectedSignature secret req.messageId req.timestamp req.body) :
    HandleEventSubCallback codec secret req =
      (.unauthorized401, "Invalid Signature", []) := by
  have hv : verifyEventSubSignature secret req = false := by
    unfold verifyEventSubSignature
    split
    · rfl
    · exact beq_eq_false_iff_ne.mpr h
  unfold HandleEventSubCallback
  rw [hv]
  rfl

set_option maxRecDepth 100000 in
/-- Witness for C3: a concrete request carrying a bogus signature (as a
forger without the secret would send) is rejected with 401 and produces
no actions. -/
theorem signature_rejection_witness :
    HandleEventSubCallback
      ⟨fun _ => none, fun _ => none, fun _ => none⟩ "s3cr3t"
      ⟨"msgid-1", "2023-10-10T10:10:10Z", "notification",
        "sha256=0000000000000000000000000000000000000000000000000000000000000000",
        strBytes "x"⟩ =
      (.unauthorized401, "Invalid Signature", []) :=
  signature_rejection _ "s3cr3t" _ (by decide)

/-- The notification body of the concrete cheer scenario (braces are
written with hex escapes): the JSON text
`\x7b"subscription":\x7b"type":"channel.cheer"\x7d,"event":\x7b"user_name":"Ada","bits":500,"message":"gg"\x7d\x7d`. -/
def cheerBody : String :=
  "\x7b\"subscription\":\x7b\"type\":\"channel.cheer\"\x7d,\"event\":\x7b\"user_name\":\"Ada\",\"bits\":500,\"message\":\"gg\"\x7d\x7d"

/-- `json.Unmarshal` behaviour on the cheer scenario body: parsing it
as a notification envelope yields event type `channel.cheer` and the
cheer event with user "Ada", 500 bits and message "gg". -/
def cheerCodec : JsonCodec :=
  { envelope := fun b =>
      if b = strBytes cheerBody then
        some ("channel.cheer", .cheer "Ada" 500 "gg" false)
      else none,
    challenge := fun _ => none,
    revocation := fun _ => none }

/-- The cheer scenario request: notification message type, body as
above, and a signature computed with the genuine webhook secret over
the genuine headers and body (hence valid). -/
def cheerReq : EventSubRequest :=
  { messageId := "msgid-2",
    timestamp := "2023-10-10T10:10:10Z",
    messageType := "notification",
    signature :=
      expectedSignature "s3cr3t" "msgid-2" "2023-10-10T10:10:10Z" (strBytes cheerBody),
    body := strBytes cheerBody }

set_option maxRecDepth 1000000 in
/-- C8.  The concrete webhook scenario: the cheer notification body
with a valid signature is accepted (200 "OK"), reaches event
translation, and broadcasts a payload whose key/value pairs are exactly
those of the JSON object
`\x7b"type":"twitch_cheer","user_name":"Ada","bits":500,"message":"gg"\x7d`. -/
theorem cheer_scenario :
    HandleEventSubCallback cheerCodec "s3cr3t" cheerReq =
      (.ok200, "OK",
        [.translate "channel.cheer",
         .broadcast [("type", .s "twitch_cheer"), ("user_name", .s "Ada"),
                     ("bits", .n 500), ("message", .s "gg")]]) := by
  decide

/-! ## Command dispatcher (`internal/twitch/chat.go`,
`internal/youtube/youtube.go`)

The Twitch IRC handler `handlePrivateMessage` and the YouTube polling
handler `handleCommand` share the command table; only the Twitch
handler consults the cooldown ledger (`lastUsage`).  Go maps are
modelled as association lists (`List.lookup`); `time.Time` values are
`Nat` instants with `time.Since(t) = now - t`. -/

/-- Entry of the `AudioCommandsMap` built by `ScanAudioCommands`. -/
structure CommandData where
  filename : String
  permission : String
  mediaType : String
deriving DecidableEq, Repr

/-- `AudioCommandsMap`: command name → command data. -/
abbrev AudioCommandsMap := List (String × CommandData)

/-- `hasPermission` from chat.go: broadcasters and moderators pass
every level; otherwise the level's own badge requirement applies.
A user's badge map is modelled by the list of badge names held. -/
def hasPermission (badges : List String) (requiredLevel : String) : Bool :=
  if badges.contains "broadcaster" then true
  else if badges.contains "moderator" then true
  else if requiredLevel == "everyone" then true
  else if requiredLevel == "subscriber" then
    badges.contains "subscriber" || badges.contains "founder"
  else if requiredLevel == "vip" then badges.contains "vip"
  else false

/-- Go's whitespace test used by `strings.Fields`. -/
def isSpaceChar (c : Char) : Bool :=
  c = ' ' || c = '\t' || c = '\n' || c = '\r'

/-- Drop leading whitespace characters. -/
def dropSpaces : List Char → List Char
  | [] => []
  | c :: cs => if isSpaceChar c then dropSpaces cs else c :: cs

/-- Take characters up to the first whitespace. -/
def takeUntilSpace : List Char → List Char
  | [] => []
  | c :: cs => if isSpaceChar c then [] else c :: takeUntilSpace cs

/-- `strings.Fields(s)[0]`: the first maximal run of non-whitespace
characters (the handlers only reach it on messages starting with "!",
hence non-empty fields exist). -/
def firstField (s : String) : String :=
  String.mk (takeUntilSpace (dropSpaces s.data))

/-- `strings.HasPrefix(s, t)` over the characters (the strings handled
here are ASCII, for which character and byte prefixes coincide). -/
def strStarts (s t : String) : Bool :=
  t.data.isPrefixOf s.data

/-- `strings.TrimPrefix(s, "!")`. -/
def trimBang (s : String) : String :=
  if strStarts s "!" then String.mk (s.data.drop 1) else s

/-- ASCII lower-casing of one character (command names come from ASCII
file names, so Go's Unicode-aware `strings.ToLower` agrees). -/
def lowerChar (c : Char) : Char :=
  if 65 ≤ c.toNat && c.toNat ≤ 90 then Char.ofNat (c.toNat + 32) else c

/-- ASCII `strings.ToLower`. -/
def lowerString (s : String) : String :=
  String.mk (s.data.map lowerChar)

/-- Command name extraction shared by both handlers:
`strings.ToLower(strings.TrimPrefix(strings.Fields(text)[0], "!"))`. -/
def commandNameOf (text : String) : String :=
  lowerString (trimBang (firstField text))

/-- An inbound Twitch IRC private message: text, author badges, and
the emote occurrences `(emote id, count)`. -/
structure PrivMsg where
  text : String
  userName : String
  badges : List String
  emotes : List (String × Nat)
deriving DecidableEq, Repr

/-- Observable effects of the chat handler: a payload sent to the
hub's `Broadcast` channel, or a reply sent back to the chat via
`client.Say` (the latter gated by the rate limiter, whose successful
acquisition is modelled as immediate). -/
inductive ChatAction where
  | hubBroadcast (p : Payload)
  | say (channel : String) (response : String)
deriving DecidableEq, Repr

/-- The cooldown ledger `lastUsage : map[string]time.Time`. -/
structure CooldownState where
  lastUsage : List (String × Nat)
deriving DecidableEq, Repr

/-- Go map assignment on an association list. -/
def mapSet (m : List (String × Nat)) (k : String) (v : Nat) : List (String × Nat) :=
  (k, v) :: m.filter (fun e => !(e.1 == k))

/-- Emote CDN URLs built for the emote wall, one per occurrence. -/
def emoteURLs (emotes : List (String × Nat)) : List String :=
  emotes.flatMap fun e =>
    List.replicate e.2
      ("https://static-cdn.jtvnw.net/emoticons/v2/" ++ e.1 ++ "/default/dark/3.0")

/-- The `EmoteWallPayload` struct marshalled to the hub. -/
def emoteWallPayload (urls : List String) : Payload :=
  [("type", .s "emote_wall"), ("emotes", .arr urls)]

/-- The `ChatAlertPayload` struct marshalled to the hub on a media
command dispatch. -/
def soundAlertPayload (cmd : CommandData) : Payload :=
  [("type", .s "sound_command"), ("filename", .s cmd.filename),
   ("media_type", .s cmd.mediaType)]

/-- The emote wall portion of `handlePrivateMessage`. -/
def emoteActions (msg : PrivMsg) : List ChatAction :=
  if msg.emotes.length > 0 then
    let urls := emoteURLs msg.emotes
    if urls.length > 0 then [.hubBroadcast (emoteWallPayload urls)] else []
  else []

/-- `handleListCommands`: the formatted per-tier command listing sent
back to chat (commands sorted as `sort.Strings` does). -/
def listCommandsResponse (cmds : AudioCommandsMap) : String :=
  let everyone := ((cmds.filter (fun e => e.2.permission == "everyone")).map
    (fun e => "!" ++ e.1)).mergeSort (fun x y => decide (x ≤ y))
  let subs := ((cmds.filter (fun e => e.2.permission == "subscriber")).map
    (fun e => "!" ++ e.1)).mergeSort (fun x y => decide (x ≤ y))
  let vips := ((cmds.filter (fun e => e.2.permission == "vip")).map
    (fun e => "!" ++ e.1)).mergeSort (fun x y => decide (x ≤ y))
  let part1 := String.intercalate ", " everyone
  let part2 :=
    if subs.length > 0 then
      (if part1.length > 0 then " / " else "") ++ "Subscribers: " ++
        String.intercalate ", " subs
    else ""
  let part3 :=
    if vips.length > 0 then
      (if (part1 ++ part2).length > 0 then " / " else "") ++ "Vips: " ++
        String.intercalate ", " vips
    else ""
  let response := part1 ++ part2 ++ part3
  if response == "" then "No active commands found." else response

/-- `handlePrivateMessage` from chat.go: emote wall, command prefix
check, reserved list command, lookup, permission check, cooldown check
(per command name), then dispatch and ledger update. -/
def handlePrivateMessage (cmds : AudioCommandsMap) (cooldownDuration : Nat)
    (st : CooldownState) (now : Nat) (channel : String) (msg : PrivMsg) :
    CooldownState × List ChatAction :=
  let ew := emoteActions msg
  if !(strStarts msg.text "!") then (st, ew)
  else
    let commandName := commandNameOf msg.text
    if commandName == "commands" || commandName == "comandi" then
      (st, ew ++ [.say channel (listCommandsResponse cmds)])
    else
      match cmds.lookup commandName with
      | none => (st, ew)
      | some cmdData =>
          if !(hasPermission msg.badges cmdData.permission) then (st, ew)
          else
            match st.lastUsage.lookup commandName with
            | some lastUsed =>
                if now - lastUsed < cooldownDuration then (st, ew)
                else
                  (⟨mapSet st.lastUsage commandName now⟩,
                    ew ++ [.hubBroadcast (soundAlertPayload cmdData)])
            | none =>
                (⟨mapSet st.lastUsage commandName now⟩,
                  ew ++ [.hubBroadcast (soundAlertPayload cmdData)])

/-- A YouTube chat author (`LiveChatMessageAuthorDetails`). -/
structure YTAuthor where
  displayName : String
  isChatOwner : Bool
  isChatModerator : Bool
  isChatSponsor : Bool
deriving DecidableEq, Repr

/-- The permission switch inlined in youtube.go's `handleCommand`:
`everyone` always passes; `vip` requires moderator or owner;
`subscriber` requires sponsor (member), moderator or owner; any other
level leaves `hasPerm` false. -/
def ytCommandPermitted (author : YTAuthor) (permission : String) : Bool :=
  if permission == "everyone" then true
  else if permission == "vip" then author.isChatModerator || author.isChatOwner
  else if permission == "subscriber" then
    author.isChatSponsor || author.isChatModerator || author.isChatOwner
  else false

/-- `handleCommand` from youtube.go: lookup, permission check, then
immediate dispatch of the sound payload.  Note: no cooldown ledger is
consulted or updated on this path. -/
def ytHandleCommand (cmds : AudioCommandsMap) (message : String)
    (author : YTAuthor) : Option Payload :=
  let commandName := commandNameOf message
  match cmds.lookup commandName with
  | none => none
  | some cmdData =>
      if !(ytCommandPermitted author cmdData.permission) then none
      else some (soundAlertPayload cmdData)

/-- Recognise a dispatched sound-command broadcast. -/
def isSoundAction : ChatAction → Bool
  | .hubBroadcast p => p.lookup "type" == some (JVal.s "sound_command")
  | _ => false

/-- Number of sound-command events dispatched by a list of actions. -/
def soundCount (acts : List ChatAction) : Nat :=
  (acts.filter isSoundAction).length

/-- Number of sound-command events dispatched by a sequence of YouTube
chat invocations `(message, author)`. -/
def ytDispatchCount (cmds : AudioCommandsMap)
    (invocations : List (String × YTAuthor)) : Nat :=
  (invocations.filterMap fun iv => ytHandleCommand cmds iv.1 iv.2).length

lemma soundCount_append (a b : List ChatAction) :
    soundCount (a ++ b) = soundCount a + soundCount b := by
  simp [soundCount, List.filter_append]

lemma soundCount_emoteActions (msg : PrivMsg) :
    soundCount (emoteActions msg) = 0 := by
  unfold emoteActions
  split
  · dsimp only
    split
    · simp [soundCount, isSoundAction, emoteWallPayload, List.lookup]
    · rfl
  · rfl

lemma soundCount_single_sound (cmd : CommandData) :
    soundCount [ChatAction.hubBroadcast (soundAlertPayload cmd)] = 1 := by
  simp [soundCount, isSoundAction, soundAlertPayload, List.lookup]

lemma lookup_mapSet_self (m : List (String × Nat)) (k : String) (v : Nat) :
    (mapSet m k v).lookup k = some v := by
  simp [mapSet, List.lookup]

/-- A media command invocation that passes lookup, permission and
cooldown dispatches the sound payload and records the invocation
time. -/
lemma handlePrivateMessage_dispatch (cmds : AudioCommandsMap) (W : Nat)
    (st : CooldownState) (now : Nat) (ch : String) (msg : PrivMsg)
    (name : String) (cmd : CommandData)
    (hs : strStarts msg.text "!" = true)
    (hn : commandNameOf msg.text = name)
    (hres : (name == "commands" || name == "comandi") = false)
    (hlook : cmds.lookup name = some cmd)
    (hp : hasPermission msg.badges cmd.permission = true)
    (hcool : st.lastUsage.lookup name = none ∨
      ∃ t, st.lastUsage.lookup name = some t ∧ W ≤ now - t) :
    handlePrivateMessage cmds W st now ch msg =
      (⟨mapSet st.lastUsage name now⟩,
        emoteActions msg ++ [.hubBroadcast (soundAlertPayload cmd)]) := by
  unfold handlePrivateMessage
  rw [hs, hn]
  rcases hcool with hfresh | ⟨t, hlast, hge⟩
  · simp [hres, hlook, hp, hfresh]
  · simp [hres, hlook, hp, hlast, Nat.not_lt.mpr hge]

/-- A media command invocation inside the cooldown window is dropped:
no dispatch and no ledger change. -/
lemma handlePrivateMessage_blocked (cmds : AudioCommandsMap) (W : Nat)
    (st : CooldownState) (now : Nat) (ch : String) (msg : PrivMsg)
    (name : String) (cmd : CommandData) (t : Nat)
    (hs : strStarts msg.text "!" = true)
    (hn : commandNameOf msg.text = name)
    (hres : (name == "commands" || name == "comandi") = false)
    (hlook : cmds.lookup name = some cmd)
    (hp : hasPermission msg.badges cmd.permission = true)
    (hlast : st.lastUsage.lookup name = some t)
    (hlt : now - t < W) :
    handlePrivateMessage cmds W st now ch msg = (st, emoteActions msg) := by
  unfold handlePrivateMessage
  rw [hs, hn]
  simp [hres, hlook, hp, hlast, hlt]

/-- C5 (amended).  The command cooldown, keyed by command name only and
independent of the invoking user, governs the Twitch chat path: from a
fresh ledger, a first invocation dispatches exactly one sound event; a
second invocation of the same command (by any user) less than W later
dispatches none, and one at least W later dispatches exactly one.  The
YouTube path, by contrast, consults no cooldown ledger at all: every
invocation that passes lookup and permission dispatches, regardless of
timing. -/
theorem command_cooldown_amended (cmds : AudioCommandsMap) (W : Nat)
    (st : CooldownState) (t1 t2 : Nat) (ch1 ch2 : String)
    (msg1 msg2 : PrivMsg) (name : String) (cmd : CommandData)
    (hs1 : strStarts msg1.text "!" = true)
    (hs2 : strStarts msg2.text "!" = true)
    (hn1 : commandNameOf msg1.text = name)
    (hn2 : commandNameOf msg2.text = name)
    (hres : (name == "commands" || name == "comandi") = false)
    (hlook : cmds.lookup name = some cmd)
    (hp1 : hasPermission msg1.badges cmd.permission = true)
    (hp2 : hasPermission msg2.badges cmd.permission = true)
    (hfresh : st.lastUsage.lookup name = none) :
    soundCount (handlePrivateMessage cmds W st t1 ch1 msg1).2 = 1 ∧
    (t2 - t1 < W →
      soundCount (handlePrivateMessage cmds W
        (handlePrivateMessage cmds W st t1 ch1 msg1).1 t2 ch2 msg2).2 = 0) ∧
    (W ≤ t2 - t1 →
      soundCount (handlePrivateMessage cmds W
        (handlePrivateMessage cmds W st t1 ch1 msg1).1 t2 ch2 msg2).2 = 1) ∧
    (∀ (m : String) (author : YTAuthor) (name2 : String) (cmd2 : CommandData),
      commandNameOf m = name2 → cmds.lookup name2 = some cmd2 →
      ytCommandPermitted author cmd2.permission = true →
      ytHandleCommand cmds m author = some (soundAlertPayload cmd2)) := by
  have h1 := handlePrivateMessage_dispatch cmds W st t1 ch1 msg1 name cmd
    hs1 hn1 hres hlook hp1 (Or.inl hfresh)
  have hledger : (handlePrivateMessage cmds W st t1 ch1 msg1).1.lastUsage.lookup name
      = some t1 := by
    rw [h1]
    exact lookup_mapSet_self st.lastUsage name t1
  refine ⟨?_, ?_, ?_, ?_⟩
  · rw [h1]
    simp [soundCount_append, soundCount_emoteActions, soundCount_single_sound]
  · intro hlt
    rw [handlePrivateMessage_blocked cmds W _ t2 ch2 msg2 name cmd t1
      hs2 hn2 hres hlook hp2 hledger hlt]
    exact soundCount_emoteActions msg2
  · intro hge
    rw [handlePrivateMessage_dispatch cmds W _ t2 ch2 msg2 name cmd
      hs2 hn2 hres hlook hp2 (Or.inr ⟨t1, hledger, hge⟩)]
    simp [soundCount_append, soundCount_emoteActions, soundCount_single_sound]
  · intro m author name2 cmd2 hcn hlk hpm
    unfold ytHandleCommand
    rw [hcn]
    simp [hlk, hpm]

/-- Concrete command table for the cooldown and permission witnesses:
one media command open to everyone. -/
def exCommands : AudioCommandsMap :=
  [("boom", ⟨"everyone/boom.mp3", "everyone", "audio"⟩)]

/-- A YouTube author with no special role. -/
def plainAuthor : YTAuthor := ⟨"PlainUser", false, false, false⟩

/-- C5 counterexample.  Two otherwise-successful invocations of the
same command arriving through the YouTube ingestion path dispatch two
sound events, not one — the YouTube handler consults no clock and no
cooldown ledger, so this holds for any spacing, in particular for
spacings smaller than the cooldown window. -/
theorem cooldown_cross_source_cex :
    ytDispatchCount exCommands [("!boom", plainAuthor), ("!boom", plainAuthor)] = 2 ∧
    ¬(2 = 1) := by decide

/-- Witness for C5 (amended) at concrete inputs: window W = 15, first
invocation at t = 0 by one user, second at t = 5 by another. -/
theorem command_cooldown_amended_witness :
    soundCount (handlePrivateMessage exCommands 15 ⟨[]⟩ 0 "chan"
      ⟨"!boom", "alice", [], []⟩).2 = 1 ∧
    (5 - 0 < 15 →
      soundCount (handlePrivateMessage exCommands 15
        (handlePrivateMessage exCommands 15 ⟨[]⟩ 0 "chan"
          ⟨"!boom", "alice", [], []⟩).1 5 "chan"
        ⟨"!boom", "bob", [], []⟩).2 = 0) ∧
    (15 ≤ 5 - 0 →
      soundCount (handlePrivateMessage exCommands 15
        (handlePrivateMessage exCommands 15 ⟨[]⟩ 0 "chan"
          ⟨"!boom", "alice", [], []⟩).1 5 "chan"
        ⟨"!boom", "bob", [], []⟩).2 = 1) ∧
    (∀ (m : String) (author : YTAuthor) (name2 : String) (cmd2 : CommandData),
      commandNameOf m = name2 → exCommands.lookup name2 = some cmd2 →
      ytCommandPermitted author cmd2.permission = true →
      ytHandleCommand exCommands m author = some (soundAlertPayload cmd2)) :=
  command_cooldown_amended exCommands 15 ⟨[]⟩ 0 5 "chan" "chan"
    ⟨"!boom", "alice", [], []⟩ ⟨"!boom", "bob", [], []⟩ "boom"
    ⟨"everyone/boom.mp3", "everyone", "audio"⟩
    (by decide) (by decide) (by decide) (by decide) (by decide)
    (by decide) (by decide) (by decide) (by decide)

/-- C6 counterexample.  On the Twitch mapping an account holding only
the elevated (VIP) badge does not satisfy the subscriber tier, although
it does satisfy the VIP tier itself — so an elevated account does not
satisfy every tier. -/
theorem vip_not_every_tier_cex :
    hasPermission ["vip"] "subscriber" = false ∧
    hasPermission ["vip"] "vip" = true := by decide

/-- C6 (amended).  Broadcaster- and moderator-equivalent accounts pass
every tier on both mappings; an account with no special role passes
only the open tier on both mappings; on the YouTube mapping an
elevated (moderator/owner) account passes every tier; but on the
Twitch mapping the VIP badge passes the open and VIP tiers while
failing the subscriber tier, so the tiers are not linearly ordered
there. -/
theorem permission_tiers_amended :
    (∀ (badges : List String) (lvl : String),
      badges.contains "broadcaster" = true ∨ badges.contains "moderator" = true →
      hasPermission badges lvl = true) ∧
    (∀ lvl, hasPermission [] lvl = true ↔ lvl = "everyone") ∧
    (∀ (a : YTAuthor), (a.isChatOwner || a.isChatModerator) = true →
      ytCommandPermitted a "everyone" = true ∧
      ytCommandPermitted a "subscriber" = true ∧
      ytCommandPermitted a "vip" = true) ∧
    (∀ (a : YTAuthor), a.isChatOwner = false → a.isChatModerator = false →
      a.isChatSponsor = false →
      ∀ lvl, ytCommandPermitted a lvl = true ↔ lvl = "everyone") ∧
    (hasPermission ["vip"] "everyone" = true ∧
      hasPermission ["vip"] "vip" = true ∧
      hasPermission ["vip"] "subscriber" = false) := by
  refine ⟨?_, ?_, ?_, ?_, by decide⟩
  · intro badges lvl h
    have h' : "broadcaster" ∈ badges ∨ "moderator" ∈ badges := by
      rcases h with h | h
      · exact Or.inl (by simpa using h)
      · exact Or.inr (by simpa using h)
    simp [hasPermission]
    tauto
  · intro lvl
    by_cases h1 : lvl = "everyone"
    · subst h1; simp [hasPermission]
    · by_cases h2 : lvl = "subscriber"
      · subst h2; simp [hasPermission]
      · by_cases h3 : lvl = "vip"
        · subst h3; simp [hasPermission]
        · simp [hasPermission, beq_iff_eq, h1, h2, h3]
  · intro a h
    refine ⟨rfl, ?_, ?_⟩
    · show (a.isChatSponsor || a.isChatModerator || a.isChatOwner) = true
      rcases Bool.or_eq_true_iff.mp h with h | h <;> simp [h]
    · show (a.isChatModerator || a.isChatOwner) = true
      rcases Bool.or_eq_true_iff.mp h with h | h <;> simp [h]
  · intro a ho hm hsp lvl
    by_cases h1 : lvl = "everyone"
    · subst h1; simp [ytCommandPermitted]
    · by_cases h2 : lvl = "vip"
      · subst h2; simp [ytCommandPermitted, ho, hm]
      · by_cases h3 : lvl = "subscriber"
        · subst h3; simp [ytCommandPermitted, ho, hm, hsp]
        · simp [ytCommandPermitted, beq_iff_eq, h1, h2, h3]

/-- Witness for C6 (amended): the universally quantified clauses
instantiated at concrete accounts and tiers. -/
theorem permission_tiers_amended_witness :
    hasPermission ["moderator"] "vip" = true ∧
    (hasPermission [] "subscriber" = true ↔ ("subscriber" : String) = "everyone") ∧
    ytCommandPermitted ⟨"Own", true, false, false⟩ "subscriber" = true ∧
    (ytCommandPermitted plainAuthor "vip" = true ↔ ("vip" : String) = "everyone") := by
  refine ⟨?_, ?_, ?_, ?_⟩
  · exact permission_tiers_amended.1 ["moderator"] "vip" (Or.inr (by decide))
  · exact permission_tiers_amended.2.1 "subscriber"
  · exact (permission_tiers_amended.2.2.1 ⟨"Own", true, false, false⟩ (by decide)).2.1
  · exact permission_tiers_amended.2.2.2.1 plainAuthor rfl rfl rfl "vip"

/-! ## YouTube polling engine (`internal/youtube/youtube.go`)

`pollChat` reads the `youtube_state` row, fetches a page of live chat
messages with the persisted continuation token, upserts the
server-returned `NextPageToken` back to the row, and only then hands
the fetched items to `processMessages`.  The database row is modelled
as an `Option YTState` (none = `sql.ErrNoRows`); the remote API call is
an injected function from the request token to an optional response
(none = API error); a failing `UpsertYouTubeState` is modelled by the
`persistOk` flag (the code only logs a warning on failure). -/

/-- The `youtube_state` row for the monitored channel: `live_chat_id`
and `next_page_token`, both nullable (`sql.NullString`). -/
structure YTState where
  liveChatID : Option String
  nextPageToken : Option String
deriving DecidableEq, Repr

/-- `LiveChatSuperChatDetails` fields used by the handler. -/
structure SuperChatDetails where
  amountDisplayString : String
  userComment : String
  tier : Nat
deriving DecidableEq, Repr

/-- `LiveChatSuperStickerDetails` fields used by the handler. -/
structure SuperStickerDetails where
  amountDisplayString : String
  altText : String
deriving DecidableEq, Repr

/-- One `LiveChatMessage`: snippet fields and author details. -/
structure ChatItem where
  displayMessage : String
  superChat : Option SuperChatDetails
  superSticker : Option SuperStickerDetails
  author : YTAuthor
deriving DecidableEq, Repr

/-- The super-chat monetization payload. -/
def superChatPayload (author : YTAuthor) (sc : SuperChatDetails) : Payload :=
  [("type", .s "youtube_super_chat"), ("user_name", .s author.displayName),
   ("amount_string", .s sc.amountDisplayString), ("message", .s sc.userComment),
   ("tier", .n sc.tier)]

/-- The super-sticker monetization payload. -/
def superStickerPayload (author : YTAuthor) (ss : SuperStickerDetails) : Payload :=
  [("type", .s "youtube_super_sticker"), ("user_name", .s author.displayName),
   ("amount_string", .s ss.amountDisplayString), ("sticker_alt", .s ss.altText)]

/-- `processMessages`: classify each item — super chat, super sticker,
command-prefixed text handed to `handleCommand`, or ignored — and
collect the payloads broadcast to the hub. -/
def processMessages (cmds : AudioCommandsMap) (items : List ChatItem) : List Payload :=
  items.flatMap fun item =>
    match item.superChat with
    | some sc => [superChatPayload item.author sc]
    | none =>
        match item.superSticker with
        | some ss => [superStickerPayload item.author ss]
        | none =>
            if item.displayMessage != "" && strStarts item.displayMessage "!" then
              (ytHandleCommand cmds item.displayMessage item.author).toList
            else []

/-- One page returned by `LiveChatMessages.List`. -/
structure FetchResponse where
  nextPageToken : String
  items : List ChatItem
deriving DecidableEq, Repr

/-- The ordered store/processing events of one polling cycle: the
upsert of the new continuation token, and the processing of each
item. -/
inductive PollAction where
  | upsertToken (tok : String)
  | processItem (item : ChatItem)
deriving DecidableEq, Repr

/-- The error cases `pollChat` can return. -/
inductive PollErr where
  | noState
  | noLiveChatID
  | apiFailure
deriving DecidableEq, Repr

/-- Result of one `pollChat` cycle: the returned error (none =
success), the `youtube_state` row after the cycle, the ordered
store/processing trace, and the payloads broadcast to the hub. -/
structure PollOutcome where
  res : Option PollErr
  store : Option YTState
  trace : List PollAction
  broadcasts : List Payload
deriving DecidableEq, Repr

/-- The page token put on the request: the persisted token, used only
when present and non-empty. -/
def pollRequestToken (st : YTState) : Option String :=
  match st.nextPageToken with
  | some t => if t != "" then some t else none
  | none => none

/-- `pollChat`: load state, require a live chat id, fetch the page,
upsert the new token (logging only a warning if the upsert fails), and
then process the fetched items. -/
def pollChat (cmds : AudioCommandsMap) (store : Option YTState)
    (fetch : Option String → Option FetchResponse) (persistOk : Bool) :
    PollOutcome :=
  match store with
  | none => ⟨some .noState, none, [], []⟩
  | some st =>
      match st.liveChatID with
      | none => ⟨some .noLiveChatID, some st, [], []⟩
      | some _ =>
          match fetch (pollRequestToken st) with
          | none => ⟨some .apiFailure, some st, [], []⟩
          | some r =>
              ⟨none,
               if persistOk then some ⟨st.liveChatID, some r.nextPageToken⟩
               else some st,
               .upsertToken r.nextPageToken :: r.items.map .processItem,
               processMessages cmds r.items⟩

/-- The `youtube_state` row of the C2 counterexample: a live chat id
and a previously persisted token "T1". -/
def cexStore : YTState := ⟨some "chatA", some "T1"⟩

/-- A fetch of the C2 counterexample returning a fresh token "T2". -/
def cexFetch : Option String → Option FetchResponse := fun _ => some ⟨"T2", []⟩

/-- C2 counterexample.  When the store upsert fails, the polling cycle
still returns success although the persisted continuation token is the
old "T1" and not the token "T2" returned by that cycle's fetch — so
"after any successful cycle the persisted token equals the token
returned by that cycle's fetch" does not hold as stated. -/
theorem cursor_persist_cex :
    (pollChat [] (some cexStore) cexFetch false).res = none ∧
    (pollChat [] (some cexStore) cexFetch false).store = some cexStore ∧
    cexStore.nextPageToken = some "T1" ∧ ¬(("T1" : String) = "T2") := by
  decide

/-- C2 (amended).  In every polling cycle whose fetch succeeds and
whose store upsert succeeds, the cycle succeeds, the persisted token
equals the token returned by that cycle's fetch, and the upsert is
ordered before the processing of any fetched item — regardless of what
processing does. -/
theorem cursor_monotonicity_amended (cmds : AudioCommandsMap) (st : YTState)
    (fetch : Option String → Option FetchResponse) (cid : String)
    (r : FetchResponse)
    (hchat : st.liveChatID = some cid)
    (hfetch : fetch (pollRequestToken st) = some r) :
    pollChat cmds (some st) fetch true =
      ⟨none, some ⟨st.liveChatID, some r.nextPageToken⟩,
        .upsertToken r.nextPageToken :: r.items.map .processItem,
        processMessages cmds r.items⟩ := by
  unfold pollChat
  dsimp only
  rw [hchat]
  dsimp only
  rw [hfetch]
  rfl

/-- The super-chat page of the polling witnesses: token "T2" and one
€5.00 super chat, mirroring the spec's concrete polling scenario. -/
def exPage : FetchResponse :=
  ⟨"T2", [⟨"", some ⟨"€5.00", "thanks", 1⟩, none, plainAuthor⟩]⟩

/-- Witness for C2 (amended) at concrete inputs: state with persisted
token "T1", fetch returning the €5.00 super-chat page with token "T2",
and a succeeding upsert. -/
theorem cursor_monotonicity_amended_witness :
    pollChat [] (some cexStore) (fun _ => some exPage) true =
      ⟨none, some ⟨cexStore.liveChatID, some exPage.nextPageToken⟩,
        .upsertToken exPage.nextPageToken :: exPage.items.map .processItem,
        processMessages [] exPage.items⟩ :=
  cursor_monotonicity_amended [] cexStore (fun _ => some exPage) "chatA" exPage
    (by decide) (by decide)

/-- C9.  In every polling cycle whose fetch succeeds but whose store
upsert fails, `pollChat` still succeeds (the failure is only logged as
a warning): the row keeps its previous value — the persisted cursor
still names the already-consumed page — while every fetched item is
still processed (after the attempted upsert, in page order) and its
payloads broadcast. -/
theorem persist_failure_tolerated (cmds : AudioCommandsMap) (st : YTState)
    (fetch : Option String → Option FetchResponse) (cid : String)
    (r : FetchResponse)
    (hchat : st.liveChatID = some cid)
    (hfetch : fetch (pollRequestToken st) = some r) :
    pollChat cmds (some st) fetch false =
      ⟨none, some st,
        .upsertToken r.nextPageToken :: r.items.map .processItem,
        processMessages cmds r.items⟩ := by
  unfold pollChat
  dsimp only
  rw [hchat]
  dsimp only
  rw [hfetch]
  rfl

/-- Witness for C9 at concrete inputs: same state and page as the C2
witness, but the upsert fails; the cycle still succeeds, the store
keeps token "T1", and the €5.00 super chat is still broadcast. -/
theorem persist_failure_tolerated_witness :
    pollChat [] (some cexStore) (fun _ => some exPage) false =
      ⟨none, some cexStore,
        .upsertToken exPage.nextPageToken :: exPage.items.map .processItem,
        processMessages [] exPage.items⟩ :=
  persist_failure_tolerated [] cexStore (fun _ => some exPage) "chatA" exPage
    (by decide) (by decide)

/-! ## EventSub subscription conflict recovery

Embedding of `subscribeToEvent`, `createSubscription` and
`fetchExistingSubscription` from the revision with 409 auto-recovery
(the second document embedded in `internal/twitch/chat_test.go`).  The
remote `CreateEventSubSubscription` call is modelled by its outcome;
`GetEventSubSubscriptions` by the list of remote subscriptions of the
requested type. -/

/-- A remote EventSub subscription as the helix list call returns it:
identifier, status, and the two condition fields the recovery path
inspects. -/
structure RemoteSub where
  id : String
  status : String
  condBroadcasterUserID : String
  condToBroadcasterUserID : String
deriving DecidableEq, Repr

/-- A row of the `twitch_subscriptions` store. -/
structure SubRec where
  id : String
  userID : String
  eventType : String
  status : String
deriving DecidableEq, Repr

/-- `GetSubscription`: the (first) row for a (user, event-type) pair,
`none` for `sql.ErrNoRows`. -/
def getSubscription (db : List SubRec) (userID eventType : String) :
    Option SubRec :=
  (db.filter fun r => r.userID == userID && r.eventType == eventType).head?

/-- Modelled from the spec: the `twitch_subscriptions` table definition
(primary key / conflict clause) is not part of src/, so the write is
modelled after the spec's persistence contract — "upsert/get for
Subscription Records keyed by (account identity, event-type)": writing
a record replaces any previous record for the same (account,
event-type) pair. -/
def upsertSubscriptionRecord (db : List SubRec) (rec : SubRec) : List SubRec :=
  (db.filter fun r => !(r.userID == rec.userID && r.eventType == rec.eventType))
    ++ [rec]

/-- All records stored for a (user, event-type) pair. -/
def recordsFor (db : List SubRec) (userID eventType : String) : List SubRec :=
  db.filter fun r => r.userID == userID && r.eventType == eventType

/-- `fetchExistingSubscription`: walk the remote subscriptions of the
event type; for `channel.raid` match on the raid *target*
(`ToBroadcasterUserID`), for every other type match on
`BroadcasterUserID`; error (none) if nothing matches. -/
def fetchExistingSubscription (userID eventType : String) :
    List RemoteSub → Option RemoteSub
  | [] => none
  | sub :: rest =>
      if eventType == "channel.raid" then
        if sub.condToBroadcasterUserID == userID then some sub
        else fetchExistingSubscription userID eventType rest
      else if sub.condBroadcasterUserID == userID then some sub
      else fetchExistingSubscription userID eventType rest

/-- Outcome of the remote `CreateEventSubSubscription` call: a 409
conflict, a created subscription, or any other failure. -/
inductive CreateOutcome where
  | conflict
  | created (sub : RemoteSub)
  | failed
deriving DecidableEq, Repr

/-- `createSubscription` (and equally `createRaidSubscription`): on a
409 conflict, recover by fetching the existing remote subscription;
otherwise propagate the call's result. -/
def createSubscription (userID eventType : String) (outcome : CreateOutcome)
    (remote : List RemoteSub) : Option RemoteSub :=
  match outcome with
  | .conflict => fetchExistingSubscription userID eventType remote
  | .created sub => some sub
  | .failed => none

/-- The tail of `subscribeToEvent` after the enabled-record early
return: create (with conflict recovery) and persist.  The boolean
records whether an error was surfaced (logged). -/
def subscribeResolve (db : List SubRec) (userID eventType : String)
    (outcome : CreateOutcome) (remote : List RemoteSub) : List SubRec × Bool :=
  match createSubscription userID eventType outcome remote with
  | none => (db, true)
  | some s =>
      (upsertSubscriptionRecord db ⟨s.id, userID, eventType, s.status⟩, false)

/-- `subscribeToEvent`: skip if an enabled record already exists,
otherwise create (recovering from conflicts) and persist. -/
def subscribeToEvent (db : List SubRec) (userID eventType : String)
    (outcome : CreateOutcome) (remote : List RemoteSub) : List SubRec × Bool :=
  match getSubscription db userID eventType with
  | some sub =>
      if sub.status == "enabled" then (db, false)
      else subscribeResolve db userID eventType outcome remote
  | none => subscribeResolve db userID eventType outcome remote

lemma fetchExisting_mem_match (userID eventType : String) :
    ∀ (l : List RemoteSub) (s : RemoteSub),
      fetchExistingSubscription userID eventType l = some s →
      s ∈ l ∧
        (if eventType = "channel.raid" then s.condToBroadcasterUserID = userID
         else s.condBroadcasterUserID = userID)
  | [], s, h => Option.noConfusion h
  | sub :: rest, s, h => by
      unfold fetchExistingSubscription at h
      by_cases hr : eventType == "channel.raid"
      · rw [if_pos hr] at h
        have hr' : eventType = "channel.raid" := eq_of_beq hr
        by_cases hc : sub.condToBroadcasterUserID == userID
        · rw [if_pos hc] at h
          cases h
          exact ⟨List.mem_cons_self _ _, by rw [if_pos hr']; exact eq_of_beq hc⟩
        · rw [if_neg hc] at h
          have ih := fetchExisting_mem_match userID eventType rest s h
          exact ⟨List.mem_cons_of_mem _ ih.1, ih.2⟩
      · rw [if_neg hr] at h
        by_cases hc : sub.condBroadcasterUserID == userID
        · rw [if_pos hc] at h
          cases h
          refine ⟨List.mem_cons_self _ _, ?_⟩
          have hr' : ¬(eventType = "channel.raid") := by
            intro heq
            exact hr (by rw [heq]; rfl)
          rw [if_neg hr']
          exact eq_of_beq hc
        · rw [if_neg hc] at h
          have ih := fetchExisting_mem_match userID eventType rest s h
          exact ⟨List.mem_cons_of_mem _ ih.1, ih.2⟩

lemma recordsFor_upsert (db : List SubRec) (rec : SubRec) :
    recordsFor (upsertSubscriptionRecord db rec) rec.userID rec.eventType = [rec] := by
  unfold recordsFor upsertSubscriptionRecord
  rw [List.filter_append]
  have h1 : List.filter (fun r => r.userID == rec.userID && r.eventType == rec.eventType)
      (List.filter (fun r => !(r.userID == rec.userID && r.eventType == rec.eventType)) db)
      = [] := by
    apply List.filter_eq_nil_iff.mpr
    intro a ha
    have h2 := (List.mem_filter.mp ha).2
    simp only [Bool.not_eq_true'] at h2
    simp [h2]
  rw [h1]
  simp

/-- Under the no-enabled-record precondition, `subscribeToEvent` runs
the create/recover path. -/
lemma subscribeToEvent_resolves (db : List SubRec) (u t : String)
    (outcome : CreateOutcome) (remote : List RemoteSub)
    (hna : ∀ r, getSubscription db u t = some r → ¬(r.status = "enabled")) :
    subscribeToEvent db u t outcome remote = subscribeResolve db u t outcome remote := by
  unfold subscribeToEvent
  cases hget : getSubscription db u t with
  | none => rfl
  | some r =>
      have := hna r hget
      simp [beq_eq_false_iff_ne.mpr this]

/-- C4.  Conflict recovery: starting from a store with no enabled
record for the (account, event-type) pair, a remote "already exists"
conflict makes the manager list the remote subscriptions of that type
and locate the one whose condition matches the target account — the
raid-target field for `channel.raid`, the broadcaster field for every
other type — and persist it, ending with exactly one Subscription
Record for the pair, carrying the remote subscription identifier; an
error is surfaced only when no match is found, and then the store is
unchanged. -/
theorem conflict_recovery (db : List SubRec) (u t : String)
    (remote : List RemoteSub)
    (hna : ∀ r, getSubscription db u t = some r → ¬(r.status = "enabled")) :
    (∀ s, fetchExistingSubscription u t remote = some s →
      subscribeToEvent db u t .conflict remote =
        (upsertSubscriptionRecord db ⟨s.id, u, t, s.status⟩, false) ∧
      recordsFor (subscribeToEvent db u t .conflict remote).1 u t =
        [⟨s.id, u, t, s.status⟩] ∧
      s ∈ remote ∧
      (if t = "channel.raid" then s.condToBroadcasterUserID = u
       else s.condBroadcasterUserID = u)) ∧
    (fetchExistingSubscription u t remote = none →
      subscribeToEvent db u t .conflict remote = (db, true)) := by
  constructor
  · intro s hs
    have hmm := fetchExisting_mem_match u t remote s hs
    have hrun : subscribeToEvent db u t .conflict remote =
        (upsertSubscriptionRecord db ⟨s.id, u, t, s.status⟩, false) := by
      rw [subscribeToEvent_resolves db u t .conflict remote hna]
      unfold subscribeResolve createSubscription
      rw [hs]
    refine ⟨hrun, ?_, hmm.1, hmm.2⟩
    rw [hrun]
    exact recordsFor_upsert db ⟨s.id, u, t, s.status⟩
  · intro hs
    rw [subscribeToEvent_resolves db u t .conflict remote hna]
    unfold subscribeResolve createSubscription
    rw [hs]

/-- The remote subscription list of the C4 witness: one enabled
`channel.cheer` subscription for broadcaster U1. -/
def exRemote : List RemoteSub := [⟨"sub-9", "enabled", "U1", ""⟩]

/-- Witness for C4 at concrete inputs: empty store, conflict on
creating `channel.cheer` for U1, remote list containing the matching
subscription — recovery persists it and exactly one record for the
pair remains, carrying "sub-9". -/
theorem conflict_recovery_witness :
    subscribeToEvent [] "U1" "channel.cheer" .conflict exRemote =
      (upsertSubscriptionRecord [] ⟨"sub-9", "U1", "channel.cheer", "enabled"⟩, false) ∧
    recordsFor (subscribeToEvent [] "U1" "channel.cheer" .conflict exRemote).1
      "U1" "channel.cheer" = [⟨"sub-9", "U1", "channel.cheer", "enabled"⟩] := by
  have h := (conflict_recovery [] "U1" "channel.cheer" exRemote
    (by intro r hr; simp [getSubscription] at hr)).1
    ⟨"sub-9", "enabled", "U1", ""⟩ (by decide)
  exact ⟨h.1, h.2.1⟩

end VLX
